import Mathlib

/-!
# Verification of the webot scheduling core

A shallow embedding of the webot meeting-coordination bot's core algorithms:

* `AvailabilityRepository` (`src/database/models/availability.js`): busy-interval
  storage and the SQL conflict query;
* `SetBusyCommand` (`src/commands/availability/set-busy.js`): the conflict-guarded
  busy-interval creation flow;
* `NotificationService` (`src/services/notification-service.js`): reminder-job
  scheduling, the periodic dispatch sweep, reschedule and cancel;
* `MeetingService.findOptimalMeetingTime` (`src/services/meeting-service.js`):
  the grid search for meeting times;
* `ScheduleRecurringCommand` (`src/commands/meeting/schedule-recurring.js`):
  recurring-occurrence expansion.

Modelling conventions:

* Instants are minutes since the Unix epoch as `Int`.  The process runs in a
  container whose local clock is UTC (`node:18-alpine` default), so JavaScript
  `Date` field getters (`getHours`, `getDay`, ...) read UTC fields and field
  arithmetic (`setHours(getHours() - v)` etc.) is plain arithmetic on the epoch
  value, with out-of-range fields normalised by the engine.
* The SQL tables are lists of rows; `db.all` with a `WHERE` clause is `filter`
  and `ORDER BY c ASC` is a sort by `c`.  Timestamps are persisted as UTC
  ISO-8601 strings, whose lexicographic order agrees with chronological order,
  so they are modelled directly as `Int` instants.
* The IANA zone database is an environment `String → Option Int` giving each
  resolvable zone name its UTC offset in minutes at the relevant instant
  (`none` models a zone that `normalizeTimezone` rejects by throwing).
  `date-fns-tz`'s `utcToZonedTime` returns a `Date` whose epoch value is
  shifted by that offset (so that UTC-field getters display zone-local wall
  clock time).
* Fallible operations return `Option`, with `none` for a thrown exception or a
  JavaScript `NaN`/Invalid Date.
-/

namespace Webot


/-- Offsets (minutes east of UTC) of the resolvable zone names; `none` models a
zone that `TimezoneUtils.normalizeTimezone` rejects by throwing. -/
abbrev ZoneDb := String → Option Int

/-! ## JavaScript `Date` calendar arithmetic (host clock UTC)

`ScheduleRecurringCommand.calculateNextOccurrence` advances dates with
`setDate`/`setMonth`.  `setDate(getDate() + k)` is a plain shift by `k` days,
but `setMonth(getMonth() + k)` re-derives calendar fields and rebuilds the
date, so the embedding needs the civil-calendar conversion the engine performs
(days since epoch ↔ year/month/day, proleptic Gregorian). -/

/-- Days since 1970-01-01 of the civil date `y-m-d` (month `1..12`), the
standard `days_from_civil` algorithm.  All divisors are positive so `Int`'s
`/` (Euclidean = floor here) matches the algorithm's floor division. -/
def daysFromCivil (y m d : Int) : Int :=
  let y2 := if m ≤ 2 then y - 1 else y
  let era := y2 / 400
  let yoe := y2 - era * 400
  let mp := if m > 2 then m - 3 else m + 9
  let doy := (153 * mp + 2) / 5 + d - 1
  let doe := yoe * 365 + yoe / 4 - yoe / 100 + doy
  era * 146097 + doe - 719468

/-- Civil date `(y, m, d)` (month `1..12`) of a count of days since
1970-01-01, the standard `civil_from_days` algorithm. -/
def civilFromDays (z0 : Int) : Int × Int × Int :=
  let z := z0 + 719468
  let era := z / 146097
  let doe := z - era * 146097
  let yoe := (doe - doe / 1460 + doe / 36524 - doe / 146096) / 365
  let y := yoe + era * 400
  let doy := doe - (365 * yoe + yoe / 4 - yoe / 100)
  let mp := (5 * doy + 2) / 153
  let d := doy - (153 * mp + 2) / 5 + 1
  let m := if mp < 10 then mp + 3 else mp - 9
  (if m ≤ 2 then y + 1 else y, m, d)

/-- The instant `y-m-d hh:mm` UTC. -/
def mkInstant (y m d hh mm : Int) : Int :=
  1440 * daysFromCivil y m d + 60 * hh + mm

/-- JavaScript `Date.prototype.getDay` (0 = Sunday) read in UTC: day-of-week of
the epoch day number; 1970-01-01 was a Thursday (4). -/
def jsGetDay (t : Int) : Int :=
  (t / 1440 + 4) % 7

/-- JavaScript `getHours()` read in UTC. -/
def jsGetHours (t : Int) : Int :=
  t % 1440 / 60

/-- JavaScript `d.setHours(h, 0, 0, 0)` in UTC: clear the time of day, then set
the hour field. -/
def jsSetHours0 (t : Int) (h : Int) : Int :=
  t - t % 1440 + 60 * h

/-- JavaScript `d.setMonth(d.getMonth() + k)`: decompose into civil fields,
shift the (0-based) month field with year carry, and rebuild the date as
`MakeDay(year, month, 1) + (dayOfMonth - 1)` — a day-of-month beyond the
target month's length therefore overflows into the following month rather
than clamping.  The time of day is untouched. -/
def jsSetMonthPlus (t : Int) (k : Int) : Int :=
  let day := t / 1440
  let tod := t % 1440
  let c := civilFromDays day
  let m0 := (c.2.1 - 1) + k
  let y2 := c.1 + m0 / 12
  let m2 := m0 % 12 + 1
  1440 * (daysFromCivil y2 m2 1 + (c.2.2 - 1)) + tod

/-! ## AvailabilityRepository (`src/database/models/availability.js`) -/

/-- A row of the `user_availability` table. -/
structure Avail where
  id : Nat
  user_id : String
  start_datetime : Int
  end_datetime : Int
  availability_type : String
  reason : Option String
deriving DecidableEq, Repr

namespace AvailabilityRepository

/-- The three-clause overlap condition of the `findConflicts` SQL `WHERE`. -/
def conflictClause (ua : Avail) (s e : Int) : Bool :=
  (ua.start_datetime ≤ s && ua.end_datetime > s) ||
  (ua.start_datetime < e && ua.end_datetime ≥ e) ||
  (ua.start_datetime ≥ s && ua.end_datetime ≤ e)

/-- `AvailabilityRepository.findConflicts(userId, start, end, excludeId)`:
`busy` rows of the user matching the three-clause overlap condition, minus an
optional excluded id, ordered by `start_datetime` ascending. -/
def findConflicts (tbl : List Avail) (userId : String) (s e : Int)
    (excludeId : Option Nat) : List Avail :=
  List.insertionSort (fun a b => a.start_datetime ≤ b.start_datetime)
    (tbl.filter fun ua =>
      ua.user_id == userId && ua.availability_type == "busy" &&
      conflictClause ua s e &&
      (match excludeId with
       | some x => ua.id != x
       | none => true))

/-- `AvailabilityRepository.setBusyPeriod`: the row `create` inserts (the SQL
`INSERT` assigns the fresh id). -/
def setBusyPeriodRow (freshId : Nat) (userId : String) (s e : Int)
    (reason : Option String) : Avail :=
  { id := freshId, user_id := userId, start_datetime := s, end_datetime := e,
    availability_type := "busy", reason := reason }

end AvailabilityRepository

/-! ## SetBusyCommand (`src/commands/availability/set-busy.js`) -/

namespace SetBusyCommand

open AvailabilityRepository

/-- `SetBusyCommand.execute` after input validation: query `findConflicts` for
the requester over the candidate window; when conflicts exist, reply with the
conflict list and return without writing; otherwise insert the busy row via
`setBusyPeriod`.  The result is the table afterwards together with either the
reported conflicts (`Sum.inl`) or the created row (`Sum.inr`). -/
def execute (tbl : List Avail) (freshId : Nat) (userId : String)
    (s e : Int) (reason : Option String) :
    List Avail × (List Avail ⊕ Avail) :=
  let conflicts := findConflicts tbl userId s e none
  if conflicts.length > 0 then
    (tbl, Sum.inl conflicts)
  else
    let row := setBusyPeriodRow freshId userId s e reason
    (tbl ++ [row], Sum.inr row)

end SetBusyCommand

instance : IsTotal Avail (fun a b => a.start_datetime ≤ b.start_datetime) :=
  ⟨fun a b => le_total a.start_datetime b.start_datetime⟩

instance : IsTrans Avail (fun a b => a.start_datetime ≤ b.start_datetime) :=
  ⟨fun _ _ _ hab hbc => le_trans hab hbc⟩

/-- For a valid stored interval and a valid candidate window, the SQL's
three-clause overlap condition is exactly the half-open interval overlap. -/
theorem conflictClause_iff_halfOpen (ua : Avail) (s e : Int)
    (hva : ua.start_datetime < ua.end_datetime) (hse : s < e) :
    AvailabilityRepository.conflictClause ua s e = true ↔
      ua.start_datetime < e ∧ s < ua.end_datetime := by
  simp only [AvailabilityRepository.conflictClause, Bool.or_eq_true,
    Bool.and_eq_true, decide_eq_true_eq]
  omega

/-- The full filter condition of `findConflicts` (with no excluded id), for a
valid stored interval and candidate window. -/
theorem findConflicts_cond_iff (uid : String) (s e : Int) (ua : Avail)
    (hva : ua.start_datetime < ua.end_datetime) (hse : s < e) :
    (ua.user_id == uid && ua.availability_type == "busy" &&
      AvailabilityRepository.conflictClause ua s e &&
      (match (none : Option Nat) with
       | some x => ua.id != x
       | none => true)) = true ↔
      ua.user_id = uid ∧ ua.availability_type = "busy" ∧
        ua.start_datetime < e ∧ s < ua.end_datetime := by
  simp only [Bool.and_true, Bool.and_eq_true, beq_iff_eq,
    conflictClause_iff_halfOpen ua s e hva hse]
  tauto

/-- Membership in `findConflicts` (no excluded id) is exactly half-open overlap
with the candidate window, for valid intervals. -/
theorem findConflicts_mem_iff (tbl : List Avail) (uid : String)
    (s e : Int) (hv : ∀ ua ∈ tbl, ua.start_datetime < ua.end_datetime)
    (hse : s < e) (ua : Avail) :
    ua ∈ AvailabilityRepository.findConflicts tbl uid s e none ↔
      ua ∈ tbl ∧ ua.user_id = uid ∧ ua.availability_type = "busy" ∧
        ua.start_datetime < e ∧ s < ua.end_datetime := by
  rw [AvailabilityRepository.findConflicts,
    (List.perm_insertionSort _ _).mem_iff, List.mem_filter]
  constructor
  · rintro ⟨hmem, hcond⟩
    have h := (findConflicts_cond_iff uid s e ua (hv ua hmem) hse).mp hcond
    exact ⟨hmem, h.1, h.2.1, h.2.2.1, h.2.2.2⟩
  · rintro ⟨hmem, h1, h2, h3, h4⟩
    exact ⟨hmem,
      (findConflicts_cond_iff uid s e ua (hv ua hmem) hse).mpr ⟨h1, h2, h3, h4⟩⟩

/-- C3: for valid stored intervals and a valid candidate window, `findConflicts`
returns exactly the user's busy intervals overlapping `[s, e)` under the
half-open test `existing.start < e ∧ s < existing.end`, ordered by start
ascending. -/
theorem findConflicts_halfOpen_spec (tbl : List Avail) (uid : String)
    (s e : Int) (hv : ∀ ua ∈ tbl, ua.start_datetime < ua.end_datetime)
    (hse : s < e) :
    (∀ ua, ua ∈ AvailabilityRepository.findConflicts tbl uid s e none ↔
      ua ∈ tbl ∧ ua.user_id = uid ∧ ua.availability_type = "busy" ∧
        ua.start_datetime < e ∧ s < ua.end_datetime) ∧
    (AvailabilityRepository.findConflicts tbl uid s e none).Sorted
      (fun a b => a.start_datetime ≤ b.start_datetime) :=
  ⟨findConflicts_mem_iff tbl uid s e hv hse, List.sorted_insertionSort _ _⟩

/-- The stored busy interval `[10:00, 11:00)` on 2024-06-01, used to witness
the `findConflicts` characterisation. -/
def busyRow1 : Avail :=
  { id := 1, user_id := "u", start_datetime := mkInstant 2024 6 1 10 0,
    end_datetime := mkInstant 2024 6 1 11 0, availability_type := "busy",
    reason := none }

/-- Concrete instance of `findConflicts_halfOpen_spec`: busy `[10:00, 11:00)`
queried against the back-to-back candidate `[11:00, 12:00)`. -/
theorem findConflicts_halfOpen_spec_witness :
    (∀ ua, ua ∈ AvailabilityRepository.findConflicts [busyRow1] "u"
        (mkInstant 2024 6 1 11 0) (mkInstant 2024 6 1 12 0) none ↔
      ua ∈ [busyRow1] ∧ ua.user_id = "u" ∧ ua.availability_type = "busy" ∧
        ua.start_datetime < mkInstant 2024 6 1 12 0 ∧
        mkInstant 2024 6 1 11 0 < ua.end_datetime) ∧
    (AvailabilityRepository.findConflicts [busyRow1] "u"
        (mkInstant 2024 6 1 11 0) (mkInstant 2024 6 1 12 0) none).Sorted
      (fun a b => a.start_datetime ≤ b.start_datetime) :=
  findConflicts_halfOpen_spec [busyRow1] "u" (mkInstant 2024 6 1 11 0)
    (mkInstant 2024 6 1 12 0) (by decide) (by decide)

/-- C6: `SetBusyCommand.execute` rejects the creation and leaves the stored
intervals unchanged exactly when the user already has a busy interval
overlapping the candidate window (`findConflicts` non-empty); otherwise it
appends the created busy row. -/
theorem setBusy_conflict_guard (tbl : List Avail) (freshId : Nat)
    (uid : String) (s e : Int) (reason : Option String)
    (hv : ∀ ua ∈ tbl, ua.start_datetime < ua.end_datetime) (hse : s < e) :
    ((∃ ua ∈ tbl, ua.user_id = uid ∧ ua.availability_type = "busy" ∧
        ua.start_datetime < e ∧ s < ua.end_datetime) →
      SetBusyCommand.execute tbl freshId uid s e reason =
        (tbl, Sum.inl (AvailabilityRepository.findConflicts tbl uid s e none))) ∧
    (¬ (∃ ua ∈ tbl, ua.user_id = uid ∧ ua.availability_type = "busy" ∧
        ua.start_datetime < e ∧ s < ua.end_datetime) →
      SetBusyCommand.execute tbl freshId uid s e reason =
        (tbl ++ [AvailabilityRepository.setBusyPeriodRow freshId uid s e reason],
          Sum.inr (AvailabilityRepository.setBusyPeriodRow freshId uid s e reason))) := by
  constructor
  · rintro ⟨ua, hmem, hprops⟩
    have hx : ua ∈ AvailabilityRepository.findConflicts tbl uid s e none :=
      (findConflicts_mem_iff tbl uid s e hv hse ua).mpr ⟨hmem, hprops⟩
    have hpos : 0 < (AvailabilityRepository.findConflicts tbl uid s e none).length :=
      List.length_pos.mpr (List.ne_nil_of_mem hx)
    simp only [SetBusyCommand.execute, if_pos hpos]
  · intro hno
    have hnil : AvailabilityRepository.findConflicts tbl uid s e none = [] := by
      by_contra hne
      obtain ⟨x, hx⟩ := List.exists_mem_of_ne_nil _ hne
      have h := (findConflicts_mem_iff tbl uid s e hv hse x).mp hx
      exact hno ⟨x, h.1, h.2.1, h.2.2.1, h.2.2.2.1, h.2.2.2.2⟩
    simp only [SetBusyCommand.execute, hnil]
    simp

/-- Concrete instance of `setBusy_conflict_guard`: with an empty table, the
busy period `[10:00, 11:00)` is created and appended. -/
theorem setBusy_conflict_guard_witness :
    SetBusyCommand.execute [] 1 "u" (mkInstant 2024 6 1 10 0)
        (mkInstant 2024 6 1 11 0) none =
      ([AvailabilityRepository.setBusyPeriodRow 1 "u" (mkInstant 2024 6 1 10 0)
          (mkInstant 2024 6 1 11 0) none],
        Sum.inr (AvailabilityRepository.setBusyPeriodRow 1 "u"
          (mkInstant 2024 6 1 10 0) (mkInstant 2024 6 1 11 0) none)) :=
  (setBusy_conflict_guard [] 1 "u" (mkInstant 2024 6 1 10 0)
    (mkInstant 2024 6 1 11 0) none (by decide) (by decide)).2 (by decide)

/-! ## Users, participants, meetings -/

/-- A row of the `users` table (the fields the notification core reads). -/
structure User where
  id : String
  timezone : String
  notification_preferences : Option (List String)
  working_hours_start : Int
  working_hours_end : Int
deriving DecidableEq, Repr

/-- A meeting participant together with their recorded response. -/
structure Participant where
  id : String
  response : String
deriving DecidableEq, Repr

/-- The meeting fields the notification scheduler reads. -/
structure Meeting where
  id : Nat
  proposed_datetime : Int
deriving DecidableEq, Repr

/-- Digits accumulated so far by JavaScript `parseInt`; `none` when no digit
has been read yet (the `NaN` outcome). -/
def parseIntDigits : List Char → Option Nat → Option Nat
  | [], acc => acc
  | c :: rest, acc =>
    if c.isDigit then parseIntDigits rest (some ((acc.getD 0) * 10 + (c.toNat - 48)))
    else acc

/-- JavaScript `parseInt(s)` in radix 10 on a token fragment: an optional sign
followed by the longest digit prefix; `none` models `NaN`. -/
def jsParseInt (s : List Char) : Option Int :=
  match s with
  | '-' :: rest => (parseIntDigits rest none).map (fun n => -(n : Int))
  | '+' :: rest => (parseIntDigits rest none).map (fun n => (n : Int))
  | _ => (parseIntDigits s none).map (fun n => (n : Int))

/-! ## TimezoneUtils (`src/utils/timezone-utils.js`) -/

namespace TimezoneUtils

/-- `TimezoneUtils.convertToUserTimezone`: `date-fns-tz`'s `utcToZonedTime`
returns a `Date` whose epoch value is shifted by the zone's UTC offset (host
clock UTC), so that its field getters display zone-local wall-clock time.
A zone `normalizeTimezone` cannot resolve throws (`none`). -/
def convertToUserTimezone (zdb : ZoneDb) (t : Int) (tz : String) : Option Int :=
  (zdb tz).map (fun off => t + off)

/-- `TimezoneUtils.isWithinWorkingHours`: convert the instant to the user's
zone and compare the local hour against `[start, end)`; any thrown error is
caught and yields `false`. -/
def isWithinWorkingHours (zdb : ZoneDb) (t : Int) (tz : String)
    (whStart whEnd : Int) : Bool :=
  match convertToUserTimezone zdb t tz with
  | none => false
  | some localTime => whStart ≤ jsGetHours localTime && jsGetHours localTime < whEnd

end TimezoneUtils

/-! ## NotificationService (`src/services/notification-service.js`) -/

namespace NotificationService

/-- A notification job as computed by the scheduler, before the SQL `INSERT`
of `createNotificationRecord` assigns an id and the default `pending`
status. -/
structure JobSpec where
  meeting_id : Nat
  user_id : String
  notification_time : Int
  notification_type : String
deriving DecidableEq, Repr

/-- `NotificationService.calculateNotificationTime`: switch on the token's
final character (`slice(-1)`); for `h`/`m`/`d` subtract the `parseInt` of the
rest (`setHours(getHours() - v)` etc. is plain subtraction under a UTC host
clock); any other unit leaves the time unchanged — the switch has no default
case.  `none` models the Invalid Date arising when the amount is `NaN`. -/
def calculateNotificationTime (meetingTime : Int) (reminderTime : String) :
    Option Int :=
  let timeValue := jsParseInt reminderTime.data.dropLast
  match reminderTime.data.getLastD ' ' with
  | 'h' => timeValue.map (fun v => meetingTime - 60 * v)
  | 'm' => timeValue.map (fun v => meetingTime - v)
  | 'd' => timeValue.map (fun v => meetingTime - 1440 * v)
  | _ => some meetingTime

/-- `NotificationService.scheduleUserNotifications`: fetch the user (return
silently when absent), convert the meeting time into the user's zone, then
for each reminder token of the user's preferences (default
`['24h','1h','15m']`) compute the notification time and create a record only
when it is strictly later than now.  `none` models the thrown
timezone-conversion error, which the caller catches. -/
def scheduleUserNotifications (zdb : ZoneDb) (now : Int)
    (findUser : String → Option User) (meeting : Meeting)
    (participant : Participant) : Option (List JobSpec) :=
  match findUser participant.id with
  | none => some []
  | some user =>
    match TimezoneUtils.convertToUserTimezone zdb meeting.proposed_datetime
        user.timezone with
    | none => none
    | some userMeetingTime =>
      let reminderTimes := user.notification_preferences.getD ["24h", "1h", "15m"]
      some (reminderTimes.filterMap fun reminderTime =>
        match calculateNotificationTime userMeetingTime reminderTime with
        | some notificationTime =>
          if now < notificationTime then
            some ⟨meeting.id, user.id, notificationTime, reminderTime⟩
          else none
        | none => none)

/-- The filter of `scheduleNotifications` keeping interested participants. -/
def interestedFilter (p : Participant) : Bool :=
  p.response == "available" || p.response == "maybe"

/-- The participant loop of `scheduleNotifications`: schedule per user in
order; a thrown error aborts the loop, keeping records already created (the
caller catches and only logs). -/
def scheduleLoop (zdb : ZoneDb) (now : Int) (findUser : String → Option User)
    (meeting : Meeting) : List Participant → List JobSpec
  | [] => []
  | p :: ps =>
    match scheduleUserNotifications zdb now findUser meeting p with
    | none => []
    | some jobs => jobs ++ scheduleLoop zdb now findUser meeting ps

/-- `NotificationService.scheduleNotifications`: keep only participants who
responded `available` or `maybe`; when there are none, skip scheduling
entirely; otherwise schedule each interested participant. -/
def scheduleNotifications (zdb : ZoneDb) (now : Int)
    (findUser : String → Option User) (meeting : Meeting)
    (participants : List Participant) : List JobSpec :=
  let interestedUsers := participants.filter interestedFilter
  if interestedUsers.length = 0 then []
  else scheduleLoop zdb now findUser meeting interestedUsers

/-- A row of the `notifications` table. -/
structure NotifRow where
  id : Nat
  meeting_id : Nat
  user_id : String
  notification_time : Int
  notification_type : String
  status : String
deriving DecidableEq, Repr

/-- `createNotificationRecord` applied to each computed job: the SQL `INSERT`
assigns sequential fresh ids and the default status `pending`. -/
def insertJobs (nextId : Nat) : List JobSpec → List NotifRow
  | [] => []
  | spec :: rest =>
    { id := nextId, meeting_id := spec.meeting_id, user_id := spec.user_id,
      notification_time := spec.notification_time,
      notification_type := spec.notification_type, status := "pending" } ::
    insertJobs (nextId + 1) rest

/-- `NotificationService.markNotificationSent`: `UPDATE notifications SET
status = ?, sent_at = CURRENT_TIMESTAMP WHERE id = ?` — unconditional on the
row's current status. -/
def markNotificationSent (db : List NotifRow) (notificationId : Nat)
    (status : String) : List NotifRow :=
  db.map fun n => if n.id = notificationId then { n with status := status } else n

/-- The due-set query of `processScheduledNotifications`: `pending` rows with
`notification_time <= now`, ordered by `notification_time` ascending,
`LIMIT 50`. -/
def dueSnapshot (db : List NotifRow) (now : Int) : List NotifRow :=
  (List.insertionSort (fun a b => a.notification_time ≤ b.notification_time)
    (db.filter fun n => n.status == "pending" && n.notification_time ≤ now)).take 50

/-- `NotificationService.sendNotification` acting on the jobs table: a
recipient that cannot be fetched marks the row `user_not_found`; otherwise
the delivery attempt marks `sent` on success, and the `catch` marks `failed`
on a delivery error. -/
def sendNotification (db : List NotifRow) (notification : NotifRow)
    (fetchUser : String → Option User) (deliveryOk : Bool) : List NotifRow :=
  match fetchUser notification.user_id with
  | none => markNotificationSent db notification.id "user_not_found"
  | some _ =>
    if deliveryOk then markNotificationSent db notification.id "sent"
    else markNotificationSent db notification.id "failed"

/-- `NotificationService.cancelNotifications`: `UPDATE` the meeting's
`pending` rows to `cancelled`; no row is deleted. -/
def cancelNotifications (db : List NotifRow) (meetingId : Nat) : List NotifRow :=
  db.map fun n =>
    if n.meeting_id == meetingId && n.status == "pending" then
      { n with status := "cancelled" }
    else n

/-- `NotificationService.rescheduleNotifications`: `DELETE FROM notifications
WHERE meeting_id = ? AND status = 'pending'`, then look the meeting up and
re-run `scheduleNotifications` at the updated time (no-op when the meeting is
absent). -/
def rescheduleNotifications (zdb : ZoneDb) (now : Int)
    (findUser : String → Option User) (db : List NotifRow) (nextId : Nat)
    (meetingId : Nat) (newDateTime : Int) (meeting? : Option Meeting)
    (participants : List Participant) : List NotifRow :=
  let remaining := db.filter fun n =>
    !(n.meeting_id == meetingId && n.status == "pending")
  match meeting? with
  | none => remaining
  | some meeting =>
    remaining ++ insertJobs nextId (scheduleNotifications zdb now findUser
      { meeting with proposed_datetime := newDateTime } participants)

end NotificationService

/-- A zone environment where every name resolves to UTC (offset 0). -/
def utcZdb : ZoneDb := fun _ => some 0

/-- A zone environment resolving "Asia/Tokyo" to UTC+9 (no DST) and anything
else to UTC. -/
def tokyoZdb : ZoneDb := fun tz => if tz = "Asia/Tokyo" then some 540 else some 0

/-- A Tokyo-based participant with reminder preferences `["24h","1h"]`. -/
def aliceUser : User :=
  { id := "alice", timezone := "Asia/Tokyo",
    notification_preferences := some ["24h", "1h"],
    working_hours_start := 9, working_hours_end := 17 }

/-- A meeting proposed for 2024-06-01T12:00Z. -/
def meeting7 : Meeting := { id := 7, proposed_datetime := mkInstant 2024 6 1 12 0 }

/-- C1 (refuting): for the meeting at 2024-06-01T12:00Z with offsets
`["24h","1h"]` and now = 2024-06-01T10:00Z, scheduling for a Tokyo (UTC+9)
participant creates exactly one job, but it fires at 2024-06-01T20:00Z — the
zone-converted meeting time minus one hour — not at 11:00Z = startUtc − 1h:
the conversion of the meeting time into the participant's zone feeds directly
into the fire-time computation. -/
theorem schedule_fireTime_shifted_by_zone :
    NotificationService.scheduleUserNotifications tokyoZdb
        (mkInstant 2024 6 1 10 0) (fun _ => some aliceUser) meeting7
        ⟨"alice", "available"⟩ =
      some [⟨7, "alice", mkInstant 2024 6 1 20 0, "1h"⟩] ∧
    mkInstant 2024 6 1 20 0 ≠ meeting7.proposed_datetime - 60 := by
  decide

/-- A UTC participant whose only reminder token has the unknown unit `x`. -/
def bobUser : User :=
  { id := "bob", timezone := "UTC", notification_preferences := some ["2x"],
    working_hours_start := 9, working_hours_end := 17 }

/-- C8 (refuting): the malformed token "2x" is not rejected: scheduling for a
UTC participant of the 2024-06-01T12:00Z meeting with now = 10:00Z creates a
job — firing at the meeting time itself — instead of failing with
`InvalidOffsetToken`. -/
theorem unknown_unit_creates_job :
    NotificationService.scheduleUserNotifications utcZdb
        (mkInstant 2024 6 1 10 0) (fun _ => some bobUser) meeting7
        ⟨"bob", "available"⟩ =
      some [⟨7, "bob", mkInstant 2024 6 1 12 0, "2x"⟩] := by
  decide

/-- C8 (amended): a token whose final character is not `h`, `m` or `d` is
silently ignored by the unit switch — the computed notification time is the
(zone-converted) meeting time, unchanged, and no error is raised. -/
theorem calculateNotificationTime_unknown_unit (meetingTime : Int)
    (tok : String) (h1 : tok.data.getLastD ' ' ≠ 'h')
    (h2 : tok.data.getLastD ' ' ≠ 'm') (h3 : tok.data.getLastD ' ' ≠ 'd') :
    NotificationService.calculateNotificationTime meetingTime tok =
      some meetingTime := by
  unfold NotificationService.calculateNotificationTime
  split
  · exact absurd (by assumption) h1
  · exact absurd (by assumption) h2
  · exact absurd (by assumption) h3
  · rfl

/-- Concrete instance of `calculateNotificationTime_unknown_unit` at the token
"2x". -/
theorem calculateNotificationTime_unknown_unit_witness :
    NotificationService.calculateNotificationTime 0 "2x" = some 0 :=
  calculateNotificationTime_unknown_unit 0 "2x" (by decide) (by decide)
    (by decide)

/-- A pending notification row for meeting 1, due at 2024-06-01T09:00Z. -/
def pendingRow1 : NotificationService.NotifRow :=
  { id := 1, meeting_id := 1, user_id := "alice",
    notification_time := mkInstant 2024 6 1 9 0,
    notification_type := "1h", status := "pending" }

/-- C5 (refuting): the post-delivery status update of the dispatcher has no
still-pending guard (`UPDATE ... WHERE id = ?`): a job read as due while
`pending` and then cancelled by `cancelNotifications` before the delivery
write is overwritten from `cancelled` to `sent` when the sweep completes. -/
theorem dispatcher_overwrites_cancelled :
    (pendingRow1 ∈ NotificationService.dueSnapshot [pendingRow1]
      (mkInstant 2024 6 1 10 0)) ∧
    ((NotificationService.cancelNotifications [pendingRow1] 1).map
      NotificationService.NotifRow.status = ["cancelled"]) ∧
    ((NotificationService.sendNotification
        (NotificationService.cancelNotifications [pendingRow1] 1) pendingRow1
        (fun _ => some aliceUser) true).map
      NotificationService.NotifRow.status = ["sent"]) := by
  decide

/-- C9: when the recipient lookup returns no user, the dispatcher marks the
due job `user_not_found` — a status outside {pending, sent, failed,
cancelled} — and a row in that status is never again selected as due, so it
is not re-attempted. -/
theorem dispatcher_user_not_found_reachable :
    ((NotificationService.sendNotification [pendingRow1] pendingRow1
        (fun _ => none) true).map NotificationService.NotifRow.status =
      ["user_not_found"]) ∧
    (("user_not_found" : String) ∉
      ["pending", "sent", "failed", "cancelled"]) ∧
    (∀ later : Int, NotificationService.dueSnapshot
        (NotificationService.sendNotification [pendingRow1] pendingRow1
          (fun _ => none) true) later = []) := by
  refine ⟨by decide, by decide, fun later => ?_⟩
  rfl

/-- Jobs produced for one participant carry the id of the user fetched for
that participant. -/
theorem scheduleUserNotifications_user_id (zdb : ZoneDb) (now : Int)
    (findUser : String → Option User) (meeting : Meeting) (p : Participant)
    (jobs : List NotificationService.JobSpec)
    (h : NotificationService.scheduleUserNotifications zdb now findUser
      meeting p = some jobs) :
    ∀ j ∈ jobs, ∃ u, findUser p.id = some u ∧ j.user_id = u.id := by
  intro j hj
  unfold NotificationService.scheduleUserNotifications at h
  cases hf : findUser p.id with
  | none =>
    simp only [hf, Option.some.injEq] at h
    subst h
    cases hj
  | some user =>
    simp only [hf] at h
    cases hc : TimezoneUtils.convertToUserTimezone zdb meeting.proposed_datetime
        user.timezone with
    | none =>
      simp only [hc] at h
      cases h
    | some umt =>
      simp only [hc, Option.some.injEq] at h
      subst h
      refine ⟨user, rfl, ?_⟩
      obtain ⟨rt, hrt, heq⟩ := List.mem_filterMap.mp hj
      cases hct : NotificationService.calculateNotificationTime umt rt with
      | none =>
        simp only [hct] at heq
        cases heq
      | some nt =>
        simp only [hct] at heq
        by_cases hlt : now < nt
        · rw [if_pos hlt] at heq
          injection heq with heq
          subst heq
          rfl
        · rw [if_neg hlt] at heq
          cases heq

/-- Every job produced by the participant loop comes from one of the listed
participants. -/
theorem scheduleLoop_sources (zdb : ZoneDb) (now : Int)
    (findUser : String → Option User) (meeting : Meeting)
    (ps : List Participant) :
    ∀ j ∈ NotificationService.scheduleLoop zdb now findUser meeting ps,
      ∃ p ∈ ps, ∃ u, findUser p.id = some u ∧ j.user_id = u.id := by
  induction ps with
  | nil =>
    intro j hj
    cases hj
  | cons p rest ih =>
    intro j hj
    unfold NotificationService.scheduleLoop at hj
    cases hs : NotificationService.scheduleUserNotifications zdb now findUser
        meeting p with
    | none =>
      rw [hs] at hj
      cases hj
    | some jobs =>
      rw [hs] at hj
      rcases List.mem_append.mp hj with hjj | hjr
      · exact ⟨p, List.mem_cons_self _ _,
          scheduleUserNotifications_user_id zdb now findUser meeting p jobs hs
            j hjj⟩
      · obtain ⟨q, hq, hu⟩ := ih j hjr
        exact ⟨q, List.mem_cons_of_mem _ hq, hu⟩

/-- C10: notification jobs are created only for participants whose recorded
response is `available` or `maybe` (and whose user record resolves); when no
participant is interested, no job is created at all. -/
theorem scheduleNotifications_interested_only (zdb : ZoneDb) (now : Int)
    (findUser : String → Option User) (meeting : Meeting)
    (parts : List Participant) :
    (∀ j ∈ NotificationService.scheduleNotifications zdb now findUser meeting
        parts,
      ∃ p ∈ parts, (p.response = "available" ∨ p.response = "maybe") ∧
        ∃ u, findUser p.id = some u ∧ j.user_id = u.id) ∧
    ((∀ p ∈ parts, p.response ≠ "available" ∧ p.response ≠ "maybe") →
      NotificationService.scheduleNotifications zdb now findUser meeting
        parts = []) := by
  constructor
  · intro j hj
    simp only [NotificationService.scheduleNotifications] at hj
    by_cases hlen :
        (parts.filter NotificationService.interestedFilter).length = 0
    · rw [if_pos hlen] at hj
      cases hj
    · rw [if_neg hlen] at hj
      obtain ⟨p, hp, hu⟩ := scheduleLoop_sources zdb now findUser meeting _ j hj
      have hpf := List.mem_filter.mp hp
      refine ⟨p, hpf.1, ?_, hu⟩
      have hint := hpf.2
      simp only [NotificationService.interestedFilter, Bool.or_eq_true,
        beq_iff_eq] at hint
      exact hint
  · intro hall
    have hnil : parts.filter NotificationService.interestedFilter = [] := by
      rw [List.filter_eq_nil_iff]
      intro p hp
      simp only [NotificationService.interestedFilter, Bool.or_eq_true,
        beq_iff_eq]
      push_neg
      exact hall p hp
    simp only [NotificationService.scheduleNotifications, hnil]
    rfl

/-- Concrete instance of `scheduleNotifications_interested_only`: an
`available` participant sources the created job, and a lone `unavailable`
participant yields no jobs. -/
theorem scheduleNotifications_interested_only_witness :
    (∃ p ∈ [Participant.mk "bob" "available"],
      (p.response = "available" ∨ p.response = "maybe") ∧
      ∃ u, (fun _ : String => some bobUser) p.id = some u ∧
        (NotificationService.JobSpec.mk 7 "bob" (mkInstant 2024 6 1 12 0)
          "2x").user_id = u.id) ∧
    NotificationService.scheduleNotifications utcZdb 0 (fun _ => some bobUser)
      meeting7 [⟨"carl", "unavailable"⟩] = [] :=
  ⟨(scheduleNotifications_interested_only utcZdb (mkInstant 2024 6 1 10 0)
      (fun _ => some bobUser) meeting7 [⟨"bob", "available"⟩]).1
      ⟨7, "bob", mkInstant 2024 6 1 12 0, "2x"⟩ (by decide),
    (scheduleNotifications_interested_only utcZdb 0 (fun _ => some bobUser)
      meeting7 [⟨"carl", "unavailable"⟩]).2 (by decide)⟩

/-- C7 (refuting): `rescheduleNotifications` physically deletes the meeting's
pending rows: with a single pending job for meeting 1 and a re-schedule that
produces no new jobs (no participants), the table afterwards is empty — the
job that existed before the call no longer exists in any status. -/
theorem reschedule_deletes_pending_rows :
    NotificationService.rescheduleNotifications utcZdb (mkInstant 2024 6 1 10 0)
        (fun _ => some aliceUser) [pendingRow1] 2 1 (mkInstant 2024 6 2 12 0)
        (some { id := 1, proposed_datetime := mkInstant 2024 6 1 12 0 }) [] =
      [] := by
  decide

/-- Rows inserted by the scheduler carry ids at least the fresh-id counter. -/
theorem insertJobs_id_ge (specs : List NotificationService.JobSpec) :
    ∀ nextId : Nat, ∀ r ∈ NotificationService.insertJobs nextId specs,
      nextId ≤ r.id := by
  induction specs with
  | nil =>
    intro nextId r hr
    cases hr
  | cons s rest ih =>
    intro nextId r hr
    rcases List.mem_cons.mp hr with heq | hmem
    · subst heq
      exact le_refl _
    · exact Nat.le_of_succ_le (ih (nextId + 1) r hmem)

/-- C7 (amended): `rescheduleNotifications` deletes the meeting's pending
rows (their ids no longer occur in the table, assuming fresh ids and a unique
id column) and keeps every other row; `cancelNotifications` never deletes —
ids are preserved, the meeting's pending rows reappear with status
`cancelled`, and every other row survives unchanged. -/
theorem reschedule_deletes_cancelAll_preserves (zdb : ZoneDb) (now : Int)
    (findUser : String → Option User) (db : List NotificationService.NotifRow)
    (nextId : Nat) (mid : Nat) (newT : Int) (meeting? : Option Meeting)
    (parts : List Participant)
    (hfresh : ∀ n ∈ db, n.id < nextId)
    (hids : (db.map NotificationService.NotifRow.id).Nodup) :
    (∀ n ∈ db, n.meeting_id = mid → n.status = "pending" →
      n.id ∉ (NotificationService.rescheduleNotifications zdb now findUser db
        nextId mid newT meeting? parts).map NotificationService.NotifRow.id) ∧
    (∀ n ∈ db, ¬(n.meeting_id = mid ∧ n.status = "pending") →
      n ∈ NotificationService.rescheduleNotifications zdb now findUser db
        nextId mid newT meeting? parts) ∧
    ((NotificationService.cancelNotifications db mid).map
      NotificationService.NotifRow.id =
        db.map NotificationService.NotifRow.id) ∧
    (∀ n ∈ db, n.meeting_id = mid → n.status = "pending" →
      { n with status := "cancelled" } ∈
        NotificationService.cancelNotifications db mid) ∧
    (∀ n ∈ db, ¬(n.meeting_id = mid ∧ n.status = "pending") →
      n ∈ NotificationService.cancelNotifications db mid) := by
  have hfilter : ∀ n : NotificationService.NotifRow,
      (!(n.meeting_id == mid && n.status == "pending")) = true ↔
        ¬(n.meeting_id = mid ∧ n.status = "pending") := by
    intro n
    simp [Bool.and_eq_true, beq_iff_eq]
    tauto
  refine ⟨?_, ?_, ?_, ?_, ?_⟩
  · intro n hn hm hs hcontra
    obtain ⟨r, hr, hrid⟩ := List.mem_map.mp hcontra
    simp only [NotificationService.rescheduleNotifications] at hr
    have hrcases : r ∈ db.filter (fun n =>
        !(n.meeting_id == mid && n.status == "pending")) ∨
        ∃ specs, r ∈ NotificationService.insertJobs nextId specs := by
      cases meeting? with
      | none => exact Or.inl hr
      | some meeting =>
        rcases List.mem_append.mp hr with hl | hrr
        · exact Or.inl hl
        · exact Or.inr ⟨_, hrr⟩
    rcases hrcases with hl | ⟨specs, hrr⟩
    · have hrdb := (List.mem_filter.mp hl).1
      have hrcond := (hfilter r).mp (List.mem_filter.mp hl).2
      have : r = n := List.inj_on_of_nodup_map hids hrdb hn hrid
      subst this
      exact hrcond ⟨hm, hs⟩
    · have := insertJobs_id_ge specs nextId r hrr
      have := hfresh n hn
      omega
  · intro n hn hcond
    simp only [NotificationService.rescheduleNotifications]
    have hmem : n ∈ db.filter (fun n =>
        !(n.meeting_id == mid && n.status == "pending")) :=
      List.mem_filter.mpr ⟨hn, (hfilter n).mpr hcond⟩
    cases meeting? with
    | none => exact hmem
    | some meeting => exact List.mem_append.mpr (Or.inl hmem)
  · rw [NotificationService.cancelNotifications, List.map_map]
    refine List.map_congr_left ?_
    intro n hn
    by_cases hsel : (n.meeting_id == mid && n.status == "pending") = true
    · simp only [Function.comp_apply, if_pos hsel]
    · simp only [Function.comp_apply, if_neg hsel]
  · intro n hn hm hs
    have hsel : (n.meeting_id == mid && n.status == "pending") = true := by
      simp [Bool.and_eq_true, beq_iff_eq, hm, hs]
    simp only [NotificationService.cancelNotifications]
    refine List.mem_map.mpr ⟨n, hn, ?_⟩
    simp only [if_pos hsel]
  · intro n hn hcond
    have hsel : ¬ ((n.meeting_id == mid && n.status == "pending") = true) := by
      intro hx
      exact hcond (by simpa [Bool.and_eq_true, beq_iff_eq] using hx)
    simp only [NotificationService.cancelNotifications]
    refine List.mem_map.mpr ⟨n, hn, ?_⟩
    simp only [if_neg hsel]

/-- Concrete instance of `reschedule_deletes_cancelAll_preserves` at a
two-row table: binding the statement at the inputs of the refutation plus an
unrelated sent row. -/
theorem reschedule_deletes_cancelAll_preserves_witness :
    (∀ n ∈ [pendingRow1], n.meeting_id = 1 → n.status = "pending" →
      n.id ∉ (NotificationService.rescheduleNotifications utcZdb
        (mkInstant 2024 6 1 10 0) (fun _ => some aliceUser) [pendingRow1] 2 1
        (mkInstant 2024 6 2 12 0)
        (some { id := 1, proposed_datetime := mkInstant 2024 6 1 12 0 }) []).map
          NotificationService.NotifRow.id) ∧
    (∀ n ∈ [pendingRow1], ¬(n.meeting_id = 1 ∧ n.status = "pending") →
      n ∈ NotificationService.rescheduleNotifications utcZdb
        (mkInstant 2024 6 1 10 0) (fun _ => some aliceUser) [pendingRow1] 2 1
        (mkInstant 2024 6 2 12 0)
        (some { id := 1, proposed_datetime := mkInstant 2024 6 1 12 0 }) []) ∧
    ((NotificationService.cancelNotifications [pendingRow1] 1).map
      NotificationService.NotifRow.id =
        [pendingRow1].map NotificationService.NotifRow.id) ∧
    (∀ n ∈ [pendingRow1], n.meeting_id = 1 → n.status = "pending" →
      { n with status := "cancelled" } ∈
        NotificationService.cancelNotifications [pendingRow1] 1) ∧
    (∀ n ∈ [pendingRow1], ¬(n.meeting_id = 1 ∧ n.status = "pending") →
      n ∈ NotificationService.cancelNotifications [pendingRow1] 1) :=
  reschedule_deletes_cancelAll_preserves utcZdb (mkInstant 2024 6 1 10 0)
    (fun _ => some aliceUser) [pendingRow1] 2 1 (mkInstant 2024 6 2 12 0)
    (some { id := 1, proposed_datetime := mkInstant 2024 6 1 12 0 }) []
    (by decide) (by decide)

/-! ## ScheduleRecurringCommand (`src/commands/meeting/schedule-recurring.js`)
and the `RECURRING_PATTERNS` constants -/

namespace ScheduleRecurringCommand

/-- The step kind (`type`) of a `RECURRING_PATTERNS` entry. -/
inductive PatternType
  | days
  | weeks
  | months
deriving DecidableEq, Repr

/-- A `RECURRING_PATTERNS` entry: step `interval` and `type`. -/
structure RecPattern where
  interval : Int
  type : PatternType
deriving DecidableEq, Repr

/-- `RECURRING_PATTERNS.daily`: every 1 day. -/
def dailyPattern : RecPattern := ⟨1, .days⟩

/-- `RECURRING_PATTERNS.weekly`: every 7 days. -/
def weeklyPattern : RecPattern := ⟨7, .days⟩

/-- `RECURRING_PATTERNS.biweekly`: every 14 days. -/
def biweeklyPattern : RecPattern := ⟨14, .days⟩

/-- `RECURRING_PATTERNS.monthly`: every 1 month. -/
def monthlyPattern : RecPattern := ⟨1, .months⟩

/-- `ScheduleRecurringCommand.calculateNextOccurrence`: advance the current
date by `setDate(getDate() + interval)`, `setDate(getDate() + interval * 7)`
or `setMonth(getMonth() + interval)` according to the pattern type. -/
def calculateNextOccurrence (currentDate : Int) (pattern : RecPattern) : Int :=
  match pattern.type with
  | .days => currentDate + pattern.interval * 1440
  | .weeks => currentDate + pattern.interval * 7 * 1440
  | .months => jsSetMonthPlus currentDate pattern.interval

/-- The `while (currentDate <= endDate && occurrenceCount < maxOccurrences)`
loop of `createRecurringMeetings`; the remaining occurrence budget is the
decreasing argument. -/
def occurrenceDates (pattern : RecPattern) (endDate : Int) :
    Int → Nat → List Int
  | _, 0 => []
  | currentDate, Nat.succ k =>
    if currentDate ≤ endDate then
      currentDate :: occurrenceDates pattern endDate
        (calculateNextOccurrence currentDate pattern) k
    else []

/-- `ScheduleRecurringCommand.createRecurringMeetings`, restricted to the
`proposed_datetime` of each meeting it creates: `maxOccurrences` defaults to
10 and the end bound defaults to one year past the start. -/
def createRecurringMeetings (pattern : RecPattern) (startDate : Int)
    (endDate? : Option Int) (maxOccurrences? : Option Nat) : List Int :=
  occurrenceDates pattern (endDate?.getD (startDate + 365 * 1440)) startDate
    (maxOccurrences?.getD 10)

end ScheduleRecurringCommand

/-- C2 (refuting): expanding `monthly` from 2024-01-31T09:00Z with
`maxOccurrences = 2` yields `[2024-01-31T09:00Z, 2024-03-02T09:00Z]`:
JavaScript `setMonth` normalises the non-existent Feb 31 forward to Mar 2
instead of clamping to Feb 29, so the day-of-month is not held fixed and the
claimed second occurrence 2024-02-29T09:00Z is not produced. -/
theorem monthly_jan31_overflows :
    ScheduleRecurringCommand.createRecurringMeetings
        ScheduleRecurringCommand.monthlyPattern (mkInstant 2024 1 31 9 0)
        none (some 2) =
      [mkInstant 2024 1 31 9 0, mkInstant 2024 3 2 9 0] ∧
    mkInstant 2024 3 2 9 0 ≠ mkInstant 2024 2 29 9 0 := by
  decide

/-! ## MeetingService.findOptimalMeetingTime
(`src/services/meeting-service.js` with the data-gathering step of
`AvailabilityRepository.findOptimalMeetingTimes`) -/

namespace MeetingService

/-- A candidate produced by the grid search.  The source also stores
`score = availableUsers / totalUsers`; denominators are equal across one
search, so the float score is determined by `availableUsers` and omitted. -/
structure Suggestion where
  time : Int
  availableUsers : Nat
  totalUsers : Nat
deriving DecidableEq, Repr

/-- The day iteration of `findOptimalMeetingTime`: start at `startDate` and
step `setDate(getDate() + 1)` (one day under a UTC host clock) while strictly
before `endDate`. -/
def dayList (startDate endDate : Int) : List Int :=
  (List.range ((endDate - startDate + 1439) / 1440).toNat).map
    (fun i => startDate + 1440 * i)

/-- Busy periods of one user delivered by
`AvailabilityRepository.findOptimalMeetingTimes` (whose `workingHoursOnly`
parameter is accepted and never read): `busy` rows of the user from
`getTeamAvailability`'s window query `start <= endDate AND end >=
startDate`. -/
def repoBusyPeriods (availTbl : List Avail) (startDate endDate : Int)
    (uid : String) : List (Int × Int) :=
  (availTbl.filter fun p =>
    p.user_id == uid && p.availability_type == "busy" &&
    p.start_datetime ≤ endDate && p.end_datetime ≥ startDate).map
    fun p => (p.start_datetime, p.end_datetime)

/-- Timezone of a user id from the `users` table, defaulting to `"UTC"` when
absent (`availabilityData.userTimezones[userId] || 'UTC'`). -/
def userTimezoneOf (users : List User) (uid : String) : String :=
  ((users.find? fun u => u.id == uid).map User.timezone).getD "UTC"

/-- Working hours of a user id, defaulting to 9–17
(`availabilityData.workingHours[userId] || { start: 9, end: 17 }`). -/
def workingHoursOf (users : List User) (uid : String) : Int × Int :=
  ((users.find? fun u => u.id == uid).map
    fun u => (u.working_hours_start, u.working_hours_end)).getD (9, 17)

/-- `MeetingService.findOptimalMeetingTime`: iterate the days of the window;
keep Monday–Friday (`getDay() >= 1 && getDay() <= 5`, tested
unconditionally); sample start hours 9..17; count a user as available iff
`isWithinWorkingHours` holds (tested unconditionally — the `workingHoursOnly`
flag is passed to the repository and never read by either function) and no
busy period overlaps `[meetingTime, meetingTime + duration)`; keep candidates
with at least one available user; sort by score descending with ties on
`availableUsers` (equal denominators make the comparator the descending order
of `availableUsers`); `slice(0, 10)`. -/
def findOptimalMeetingTime (zdb : ZoneDb) (users : List User)
    (availTbl : List Avail) (userIds : List String) (duration : Int)
    (startDate endDate : Int) (workingHoursOnly : Bool) : List Suggestion :=
  let suggestions := (dayList startDate endDate).flatMap fun current =>
    if 1 ≤ jsGetDay current ∧ jsGetDay current ≤ 5 then
      ((List.range 9).map (fun i : Nat => (9 + i : Int))).filterMap fun hour =>
        let meetingTime := jsSetHours0 current hour
        let endTime := meetingTime + duration
        let availableUsers := userIds.countP fun uid =>
          TimezoneUtils.isWithinWorkingHours zdb meetingTime
            (userTimezoneOf users uid) (workingHoursOf users uid).1
            (workingHoursOf users uid).2 &&
          !((repoBusyPeriods availTbl startDate endDate uid).any fun period =>
            meetingTime < period.2 && endTime > period.1)
        if availableUsers > 0 then
          some ⟨meetingTime, availableUsers, userIds.length⟩
        else none
    else []
  (List.insertionSort
    (fun a b => b.availableUsers ≤ a.availableUsers) suggestions).take 10

end MeetingService

/-- A user with standard 9–17 working hours in UTC and no stored intervals. -/
def dayUser : User :=
  { id := "u", timezone := "UTC", notification_preferences := none,
    working_hours_start := 9, working_hours_end := 17 }

/-- A night-shift user: working hours 0–5 local (UTC), no stored intervals. -/
def nightUser : User :=
  { id := "u", timezone := "UTC", notification_preferences := none,
    working_hours_start := 0, working_hours_end := 5 }

/-- C4 (refuting): with `workingHoursOnly = false`, (a) a window holding only
Saturday 2024-06-01 yields no candidate although its single user is free all
day — weekend days are skipped regardless of the flag — and (b) a Monday
window with a conflict-free night-shift user yields no candidate — the
working-hours test is applied regardless of the flag. -/
theorem optimal_flag_false_still_restricts :
    (MeetingService.findOptimalMeetingTime utcZdb [dayUser] [] ["u"] 60
      (mkInstant 2024 6 1 0 0) (mkInstant 2024 6 2 0 0) false = []) ∧
    (MeetingService.findOptimalMeetingTime utcZdb [nightUser] [] ["u"] 60
      (mkInstant 2024 6 3 0 0) (mkInstant 2024 6 4 0 0) false = []) := by
  decide

/-- Setting the hour field to a value in range does not change the day of
week. -/
theorem jsGetDay_jsSetHours0 (t h : Int) (h0 : 0 ≤ h) (h1 : h ≤ 23) :
    jsGetDay (jsSetHours0 t h) = jsGetDay t := by
  unfold jsGetDay jsSetHours0
  omega

/-- C4 (amended): the weekday restriction and the working-hours requirement
are unconditional — the `workingHoursOnly` flag is accepted and never read,
so the search result is identical for both flag values, and every returned
candidate falls on Monday–Friday. -/
theorem optimal_weekdays_only_flag_ignored (zdb : ZoneDb) (users : List User)
    (availTbl : List Avail) (userIds : List String) (duration : Int)
    (startDate endDate : Int) (b1 b2 : Bool) :
    (MeetingService.findOptimalMeetingTime zdb users availTbl userIds duration
        startDate endDate b1 =
      MeetingService.findOptimalMeetingTime zdb users availTbl userIds
        duration startDate endDate b2) ∧
    (∀ sug ∈ MeetingService.findOptimalMeetingTime zdb users availTbl userIds
        duration startDate endDate b1,
      1 ≤ jsGetDay sug.time ∧ jsGetDay sug.time ≤ 5) := by
  constructor
  · rfl
  · intro sug hsug
    simp only [MeetingService.findOptimalMeetingTime] at hsug
    have hsort := List.take_subset 10 _ hsug
    have hmem := (List.perm_insertionSort
      (fun a b : MeetingService.Suggestion =>
        b.availableUsers ≤ a.availableUsers) _).mem_iff.mp hsort
    obtain ⟨current, hcur, hin⟩ := List.mem_flatMap.mp hmem
    by_cases hday : 1 ≤ jsGetDay current ∧ jsGetDay current ≤ 5
    · rw [if_pos hday] at hin
      obtain ⟨hour, hhour, hmk⟩ := List.mem_filterMap.mp hin
      obtain ⟨i, hi, rfl⟩ := List.mem_map.mp hhour
      have hrange := List.mem_range.mp hi
      split at hmk
      · injection hmk with hmk
        subst hmk
        have hday2 : jsGetDay (jsSetHours0 current ((9 + i : Int))) =
            jsGetDay current :=
          jsGetDay_jsSetHours0 current ((9 + i : Int)) (by omega) (by omega)
        constructor
        · dsimp only
          rw [hday2]
          exact hday.1
        · dsimp only
          rw [hday2]
          exact hday.2
      · cases hmk
    · rw [if_neg hday] at hin
      cases hin

/-- Concrete instance of `optimal_weekdays_only_flag_ignored` on a Monday
window (2024-06-03): the flag value does not change the result, and the
returned 09:00 candidate falls on a weekday. -/
theorem optimal_weekdays_only_flag_ignored_witness :
    (MeetingService.findOptimalMeetingTime utcZdb [dayUser] [] ["u"] 60
        (mkInstant 2024 6 3 0 0) (mkInstant 2024 6 4 0 0) false =
      MeetingService.findOptimalMeetingTime utcZdb [dayUser] [] ["u"] 60
        (mkInstant 2024 6 3 0 0) (mkInstant 2024 6 4 0 0) true) ∧
    (1 ≤ jsGetDay (MeetingService.Suggestion.mk
        (mkInstant 2024 6 3 9 0) 1 1).time ∧
      jsGetDay (MeetingService.Suggestion.mk
        (mkInstant 2024 6 3 9 0) 1 1).time ≤ 5) :=
  ⟨(optimal_weekdays_only_flag_ignored utcZdb [dayUser] [] ["u"] 60
      (mkInstant 2024 6 3 0 0) (mkInstant 2024 6 4 0 0) false true).1,
    (optimal_weekdays_only_flag_ignored utcZdb [dayUser] [] ["u"] 60
      (mkInstant 2024 6 3 0 0) (mkInstant 2024 6 4 0 0) false true).2
      ⟨mkInstant 2024 6 3 9 0, 1, 1⟩ (by decide)⟩

end Webot
